import Mathlib

/-!
# Verification of the harlow surrogate-modeling library

Shallow embedding of the harlow repository (surrogate models and benchmark
target functions) and proofs about it.  Sources embedded:

* `harlow/surrogate_model.py` (legacy generation)
* `harlow/surrogating/surrogate_model.py` (second generation)
* `tests/integration_tests/test_functions.py` (benchmark target functions)

Python floats are modelled as exact rationals (`ℚ`) where the code is purely
arithmetic, and as reals (`ℝ`) where transcendental functions
(`exp`, `log`, `cos`, `sqrt`) appear.
-/

namespace Harlow

/-! ## Shared numeric helpers (`harlow/surrogate_model.py`, lines 35-46) -/

/-- `tf.math.softplus x = log(1 + exp x)`. -/
noncomputable def softplus (x : ℝ) : ℝ := Real.log (1 + Real.exp x)

/-- `normal_sp(params)` (`surrogate_model.py` lines 43-46): maps each row
`(p₁, p₂)` of a 2-column parameter tensor to the parameters of a Normal
distribution, `loc = p₁`, `scale = 1e-3 + softplus(0.05 * p₂)`.
The distribution itself is represented by its `(loc, scale)` pair. -/
noncomputable def normal_sp (params : List (ℝ × ℝ)) : List (ℝ × ℝ) :=
  params.map fun p => (p.1, 1 / 1000 + softplus (1 / 20 * p.2))

/-! ## Benchmark target functions (`tests/integration_tests/test_functions.py`) -/

/-- `ackley_nd` (`test_functions.py` lines 35-59) on a single input row
`x = [x₁, …, x_d]`:
`t1 = -a * exp(-b * sqrt(mean(x²)))`, `t2 = -exp(mean(cos(c * x)))`,
result `t1 + t2 + a + e`.  The `np.atleast_2d` vectorization over rows is
`List.map` of this row function. -/
noncomputable def ackley_nd (x : List ℝ) (a b c : ℝ) : ℝ :=
  let n : ℝ := x.length
  let t1 := -a * Real.exp (-b * Real.sqrt ((x.map fun v => v ^ 2).sum / n))
  let t2 := -Real.exp ((x.map fun v => Real.cos (c * v)).sum / n)
  t1 + t2 + a + Real.exp 1

/-- `ackley_nd` with the source's default parameters `a=20.0, b=0.2, c=2*np.pi`. -/
noncomputable def ackley_nd_default (x : List ℝ) : ℝ :=
  ackley_nd x 20 (1 / 5) (2 * Real.pi)

/-- `six_hump_camel_2D(X)` (`test_functions.py` lines 62-70): takes the matrix
`X` (rows = points, column 0 = `x`, column 1 = `y`, modelled as a list of
pairs) and returns `((4.0 - 2.1*x² + x⁴/3)*x²) + x*y + ((-4.0 + 4.0*y²)*y²)`
per row. -/
def six_hump_camel_2D (X : List (ℚ × ℚ)) : List ℚ :=
  X.map fun p =>
    ((4 - 21 / 10 * p.1 ^ 2 + p.1 ^ 4 / 3) * p.1 ^ 2) + p.1 * p.2 +
      ((-4 + 4 * p.2 ^ 2) * p.2 ^ 2)

/-- `six_hump_camel_2D_2input(x, y)` (`test_functions.py` lines 73-78): the
same formula applied elementwise to two separate equal-length vectors. -/
def six_hump_camel_2D_2input (x y : List ℚ) : List ℚ :=
  List.zipWith
    (fun a b =>
      ((4 - 21 / 10 * a ^ 2 + a ^ 4 / 3) * a ^ 2) + a * b +
        ((-4 + 4 * b ^ 2) * b ^ 2))
    x y

/-- The fixed vector `b = 0.1 * [1, 2, 2, 4, 4, 6, 3, 7, 5, 5]` of `shekel`
(`test_functions.py` line 102). -/
def shekel_b : List ℚ :=
  [1/10, 2/10, 2/10, 4/10, 4/10, 6/10, 3/10, 7/10, 5/10, 5/10]

/-- The fixed 4×10 coefficient matrix `C` of `shekel`
(`test_functions.py` lines 103-110), row-major. -/
def shekel_C : List (List ℚ) :=
  [[4, 1, 8, 6, 3, 2, 5, 8, 6, 7],
   [4, 1, 8, 6, 7, 9, 3, 1, 2, 18/5],
   [4, 1, 8, 6, 3, 2, 5, 8, 6, 7],
   [4, 1, 8, 6, 7, 9, 3, 1, 2, 18/5]]

/-- The inner loop of `shekel` (`test_functions.py` lines 115-119) on one
input row `xx = [x₀, x₁, x₂, x₃]` at outer index `i`:
`inner = Σ_{j<4} (x_j - C[j][i])²`. -/
def shekelInner (xx : List ℚ) (i : Nat) : ℚ :=
  ((List.range 4).map fun j =>
    (xx.getD j 0 - (shekel_C.getD j []).getD i 0) ^ 2).sum

/-- The outer loop of `shekel` (`test_functions.py` lines 112-120):
`outer = Σ_{i<10} 1 / (inner_i + b[i])`. -/
def shekelOuter (xx : List ℚ) : ℚ :=
  ((List.range 10).map fun i => 1 / (shekelInner xx i + shekel_b.getD i 0)).sum

/-- `shekel(X)` (`test_functions.py` lines 99-122): rows of the 4-column
matrix `X` are modelled as 4-tuples; the result is `-1.0 * outer` per row. -/
def shekel (X : List (ℚ × ℚ × ℚ × ℚ)) : List ℚ :=
  X.map fun p => -1 * shekelOuter [p.1, p.2.1, p.2.2.1, p.2.2.2]

/-! ## sklearn kernel objects, as used by the classical GP surrogate

`GaussianProcess` (`surrogate_model.py` lines 68-133) and
`VanillaGaussianProcess` (`surrogating/surrogate_model.py` lines 66-133) are
textually identical in every respect relevant here; one embedding covers both.
-/

/-- sklearn composite kernels: `ConstantKernel`, `RBF`, `WhiteKernel`, `Sum`,
`Product`.  Hyperparameters are exact rationals. -/
inductive Kernel : Type
  | const (c : ℚ)
  | rbf (length_scale : ℚ)
  | white (noise_level : ℚ)
  | sum (k1 k2 : Kernel)
  | prod (k1 k2 : Kernel)
  deriving DecidableEq, Repr

namespace Kernel

/-- `vars(k)` restricted to the attributes matching the regex `^k[0-9]`:
in sklearn only `Sum`/`Product` kernels have such attributes (`k1`, `k2`);
leaf kernels expose hyperparameters under other names. -/
def kAttrs : Kernel → List (Nat × Kernel)
  | .sum a b => [(1, a), (2, b)]
  | .prod a b => [(1, a), (2, b)]
  | _ => []

/-- Whether `str(k)` matches the regex `^WhiteKernel`: sklearn prints a
`WhiteKernel` as `WhiteKernel(noise_level=…)`, and a `Sum`/`Product` as
`k1 + k2` / `k1 * k2`, so the textual representation starts with
`WhiteKernel` exactly when the leftmost leaf is a `WhiteKernel`. -/
def strStartsWithWhite : Kernel → Bool
  | .white _ => true
  | .sum a _ => strStartsWithWhite a
  | .prod a _ => strStartsWithWhite a
  | _ => false

/-- `getattr(k, "k<i>")`: `none` models an `AttributeError`. -/
def getK (k : Kernel) (i : Nat) : Option Kernel :=
  (k.kAttrs.find? fun p => p.1 = i).map Prod.snd

/-- `.noise_level` attribute access: only a `WhiteKernel` has it;
`none` models an `AttributeError`. -/
def noise_level : Kernel → Option ℚ
  | .white nl => some nl
  | _ => none

end Kernel

/-- The class-level default kernel
`1.0 * RBF(1.0) + WhiteKernel(1.0, noise_level_bounds=(5e-5, 5e-2))`
(`surrogate_model.py` line 70; `surrogating/surrogate_model.py` line 68).
`1.0 * RBF(1.0)` is `Product(ConstantKernel(1.0), RBF(1.0))`; bounds do not
affect any behavior modelled here. -/
def GaussianProcess.classKernel : Kernel :=
  .sum (.prod (.const 1) (.rbf 1)) (.white 1)

/-- Exceptions raised by the embedded classical-GP code paths. -/
inductive PyErr : Type
  /-- `ValueError`: kernel has no additive `WhiteKernel` component
  (`surrogate_model.py` lines 101-105). -/
  | valueErrorNoWhite
  /-- `ValueError`: kernel has more than one additive `WhiteKernel` component
  (`surrogate_model.py` lines 107-111). -/
  | valueErrorMultipleWhite
  /-- `AttributeError` from a failed attribute lookup. -/
  | attributeError
  /-- `ValueError` from `np.concatenate` on shape-incompatible arrays. -/
  | valueErrorConcat
  deriving DecidableEq, Repr

/-- `GaussianProcess.get_noise` (`surrogate_model.py` lines 91-113), identical
to `VanillaGaussianProcess.get_noise` (`surrogating/surrogate_model.py`
lines 89-111).  Faithful detail: the scan for `WhiteKernel` components runs
over `vars(GaussianProcess.kernel)` — the *class-level* default kernel — while
the final attribute access `getattr(self.model.kernel, attr).noise_level`
runs on the instance's kernel template (`self.model.kernel` is the `kernel=`
argument the regressor was constructed with, not the fitted `kernel_`).
The Python code returns `noise_level ** 0.5`; since the square root leaves ℚ,
this embedding returns the noise level itself and `gpNoiseStd` below applies
the square root. -/
def get_noise (instKernel : Kernel) : Except PyErr ℚ :=
  let attrs := GaussianProcess.classKernel.kAttrs
  let white_kernel_attr :=
    (attrs.filter fun p => p.2.strStartsWithWhite).map Prod.fst
  if white_kernel_attr.length = 0 then
    .error .valueErrorNoWhite
  else if white_kernel_attr.length > 1 then
    .error .valueErrorMultipleWhite
  else
    match instKernel.getK (white_kernel_attr.getD 0 0) with
    | none => .error .attributeError
    | some sub =>
      match sub.noise_level with
      | none => .error .attributeError
      | some nl => .ok nl

/-! ## numpy arrays -/

/-- A numpy array: shape plus row-major data (entries as exact rationals). -/
structure NDArray : Type where
  shape : List Nat
  data : List ℚ
  deriving DecidableEq, Repr

namespace NDArray

/-- `a.ndim`. -/
def ndim (a : NDArray) : Nat := a.shape.length

/-- Number of rows, `a.shape[0]` (0 for a 0-d array). -/
def rows (a : NDArray) : Nat := a.shape.headD 0

/-- `a.flatten()`: a 1-D array with the same row-major data. -/
def flatten (a : NDArray) : NDArray := ⟨[a.shape.prod], a.data⟩

/-- `np.concatenate([a, b])` along axis 0: requires both arrays to be at
least 1-D with equal trailing dimensions, else a `ValueError` (`none`). -/
def npConcat (a b : NDArray) : Option NDArray :=
  match a.shape, b.shape with
  | a0 :: atl, b0 :: btl =>
    if atl = btl then some ⟨(a0 + b0) :: atl, a.data ++ b.data⟩ else none
  | _, _ => none

end NDArray

/-! ## The classical (sklearn-backed) Gaussian Process surrogate -/

/-- The state of a `sklearn.gaussian_process.GaussianProcessRegressor`:
the kernel template passed at construction (`.kernel`), the restart count,
and the fitted kernel `.kernel_` (present only after `fit`).  The
hyperparameter optimization itself is external to the repository; the
optimized kernel is therefore an input to the embedded `fit`. -/
structure SkGPR : Type where
  kernel : Kernel
  n_restarts_optimizer : Nat
  kernel_fitted : Option Kernel
  deriving DecidableEq, Repr

/-- Instance state of `GaussianProcess` / `VanillaGaussianProcess`
(`surrogate_model.py` lines 68-133).  `is_probabilistic` is the class
attribute (line 69), carried per instance; `noise_level` holds the value whose
square root the Python code stores as `noise_std`. -/
structure GPState : Type where
  is_probabilistic : Bool
  train_restarts : Nat
  kernel : Kernel
  model : Option SkGPR
  noise_level : Option ℚ
  X : Option NDArray
  y : Option NDArray
  deriving DecidableEq, Repr

/-- `self.noise_std`: the Python code stores `get_noise()`, i.e.
`noise_level ** 0.5`. -/
noncomputable def gpNoiseStd (s : GPState) : Option ℝ :=
  s.noise_level.map fun nl => Real.sqrt (nl : ℝ)

namespace GPState

/-- `GaussianProcess.create_model` (`surrogate_model.py` lines 80-83):
replaces `self.model` with a fresh regressor built from the current kernel
template. -/
def create_model (s : GPState) : GPState :=
  { s with model := some ⟨s.kernel, s.train_restarts, none⟩ }

/-- `GaussianProcess.__init__` (`surrogate_model.py` lines 72-78) with a
caller-supplied kernel (default `GaussianProcess.classKernel`). -/
def init (train_restarts : Nat) (kernel : Kernel) : GPState :=
  create_model
    { is_probabilistic := true  -- class attribute, line 69
      train_restarts := train_restarts
      kernel := kernel
      model := none
      noise_level := none
      X := none
      y := none }

/-- `GaussianProcess.fit` (`surrogate_model.py` lines 85-89): stores `X`, `y`,
runs the external sklearn optimizer (whose result `fitted` is an input here,
recorded as `kernel_`), then sets `self.noise_std = self.get_noise()` —
which can raise. -/
def fit (s : GPState) (X y : NDArray) (fitted : Kernel) :
    Except PyErr GPState :=
  match s.model with
  | none => .error .attributeError
  | some m =>
    let s := { s with X := some X, y := some y,
                      model := some { m with kernel_fitted := some fitted } }
    match get_noise s.kernel with
    | .error e => .error e
    | .ok nl => .ok { s with noise_level := some nl }

/-- `GaussianProcess.update` (`surrogate_model.py` lines 123-133):
concatenates `new_X` onto the stored `X`; flattens `new_y` first when
`new_y.ndim > self.y.ndim`, then concatenates it onto the stored `y`;
copies the fitted kernel's hyperparameters back onto the kernel template
(`self.kernel.set_params(**self.model.kernel_.get_params())`, which makes the
template equal to `kernel_` since the two share one structure); rebuilds the
model and refits on the full dataset.  `fitted` is again the external
optimizer's result for the refit. -/
def update (s : GPState) (new_X new_y : NDArray) (fitted : Kernel) :
    Except PyErr GPState :=
  match s.X, s.y, s.model with
  | some X0, some y0, some m =>
    match X0.npConcat new_X with
    | none => .error .valueErrorConcat
    | some X =>
      let new_y' := if new_y.ndim > y0.ndim then new_y.flatten else new_y
      match y0.npConcat new_y' with
      | none => .error .valueErrorConcat
      | some y =>
        match m.kernel_fitted with
        | none => .error .attributeError
        | some kf =>
          let s := create_model { s with kernel := kf }
          s.fit X y fitted
  | _, _, _ => .error .attributeError

end GPState

/-! ## Neural-network surrogates -/

/-- A compiled Keras model, abstractly: its forward pass.  The pass is
stochastic for the probabilistic families (a `DistributionLambda` output
samples on each call), so it is indexed by the call number `i`; the output of
call `i` on an `n`-row input is the vector `fun r => f i r` of length `n`.
For the deterministic `NN` family the index is simply ignored by the
function supplied. -/
def KerasModel : Type := Nat → Nat → ℝ

/-- What a Python method returns: `None` (fell off the end), a 2-tuple, or a
3-tuple. -/
inductive NNPredictOut : Type
  | pyNone
  | pair (mean stdv : List ℝ)
  | triple (mean stdv : List ℝ) (preds : List (List ℝ))

/-- `np.mean(v, axis=1)` for one row: the mean of `f 0, …, f (it-1)`. -/
noncomputable def empMean (it : Nat) (f : Nat → ℝ) : ℝ :=
  (∑ i ∈ Finset.range it, f i) / it

/-- `np.std(v, axis=1)` for one row: the population standard deviation. -/
noncomputable def empStd (it : Nat) (f : Nat → ℝ) : ℝ :=
  Real.sqrt ((∑ i ∈ Finset.range it, (f i - empMean it f) ^ 2) / it)

/-- `Prob_NN.predict` (`surrogate_model.py` lines 1094-1109), textually
identical to `Bayesian_NN.predict` (lines 1195-1210).  With no model the
`if self.model:` guard falls through and the method returns `None`.
Otherwise it fills `preds[r][i]` with the `i`-th of `iterations` stochastic
forward passes at row `r` (the input matrix `X` enters only through its row
count and through the model itself, so the embedding takes `nRows` directly),
and computes the per-row empirical mean and standard deviation across passes.
Faithful detail: the `if return_samples:` branch (lines 1106-1107) consists of
the bare expression statement `mean, stdv, preds`, which builds the 3-tuple
and discards it; the method then returns `(mean, stdv)` unconditionally. -/
noncomputable def probNN_predict (model : Option KerasModel) (nRows : Nat)
    (iterations : Nat) (return_samples : Bool) : NNPredictOut :=
  match model with
  | none => .pyNone
  | some f =>
    let preds : Nat → Nat → ℝ := fun r i => f i r
    let mean := (List.range nRows).map fun r => empMean iterations (preds r)
    let stdv := (List.range nRows).map fun r => empStd iterations (preds r)
    -- `if return_samples: mean, stdv, preds` — evaluated, never returned
    let _ := if return_samples
      then some (mean, stdv,
        (List.range nRows).map fun r => (List.range iterations).map (preds r))
      else none
    .pair mean stdv

/-- `NN.predict` (`surrogate_model.py` lines 1049-1055), textually identical
in the guard to `Vanilla_NN.predict` (`surrogating/surrogate_model.py` lines
1549-1555): with no model the `if self.model:` guard falls through and the
method returns `None`; otherwise a 1-D input is promoted to a single-row
batch (`np.expand_dims(X, axis=0)`) and the model's forward pass is
returned.  The deterministic forward pass is `fun r => f 0 r`. -/
def nn_predict (model : Option KerasModel) (X : NDArray) :
    Option (List ℝ) :=
  match model with
  | none => none
  | some f =>
    let X' := if X.ndim = 1 then NDArray.mk (1 :: X.shape) X.data else X
    some ((List.range X'.rows).map fun r => f 0 r)

/-- Instance state of `Vanilla_NN` (`surrogating/surrogate_model.py` lines
1511-1555).  Its `__init__` (lines 1522-1527) does *not* call
`create_model`, so a freshly constructed instance has `model = None`. -/
structure VanillaNNState : Type where
  is_probabilistic : Bool
  model : Option KerasModel
  epochs : Nat
  batch_size : Nat

/-- `Vanilla_NN.__init__` (lines 1522-1527). -/
def VanillaNN.init (epochs batch_size : Nat) : VanillaNNState :=
  { is_probabilistic := false  -- class attribute, line 1520
    model := none
    epochs := epochs
    batch_size := batch_size }

/-! ## The single-output exact GP regression surrogate: the training loop

`GaussianProcessRegression.fit` (`surrogating/surrogate_model.py` lines
487-556).  The per-iteration losses are produced by the external
gpytorch/torch machinery; the loss sequence is therefore an input
`losses : Nat → ℚ` to the embedded loop (`losses i` = `loss.item()` at
iteration `i`).
-/

/-- The `break` condition of one loop iteration (lines 527-548): only when
`self.min_loss_rate` is truthy (set and nonzero) is
`loss_ratio = (loss_0 - loss) - min_loss_rate * loss` computed and compared;
`loss_0` is `np.inf` before the first iteration (line 517, modelled as
`none`), in which case `loss_ratio` is `+∞` and the comparison `< 0` is
false. -/
def gprBreak (min_loss_rate : Option ℚ) (loss_0 : Option ℚ) (loss : ℚ) :
    Bool :=
  match min_loss_rate with
  | none => false
  | some r =>
    if r = 0 then false
    else
      match loss_0 with
      | none => false
      | some l0 => decide ((l0 - loss) - r * loss < 0)

/-- The training loop of `GaussianProcessRegression.fit` (lines 516-551):
`rem` iterations remain, `i` is the current iteration index, `loss_0` the
previous iteration's loss (`none` = `np.inf`), `vec_loss` the accumulated
loss history.  Each executed iteration appends `loss.item()` to `vec_loss`
(line 524) before the break check (lines 546-548); a non-breaking iteration
sets `loss_0` to the current loss (line 551).  Returns the final `vec_loss`
together with the number of loop-body executions. -/
def gprFitLoop (min_loss_rate : Option ℚ) (losses : Nat → ℚ) :
    Nat → Nat → Option ℚ → List ℚ → List ℚ × Nat
  | 0, _, _, vec_loss => (vec_loss, 0)
  | rem + 1, i, loss_0, vec_loss =>
    let loss := losses i
    let vec_loss := vec_loss ++ [loss]
    if gprBreak min_loss_rate loss_0 loss then
      (vec_loss, 1)
    else
      let r := gprFitLoop min_loss_rate losses rem (i + 1) (some loss) vec_loss
      (r.1, r.2 + 1)

/-- `GaussianProcessRegression.fit`'s loop, from the top:
`self.vec_loss = []`, `loss_0 = np.inf`, `for _i in range(training_max_iter)`.
Result: `(self.vec_loss, number of executed iterations)`. -/
def gprFit (training_max_iter : Nat) (min_loss_rate : Option ℚ)
    (losses : Nat → ℚ) : List ℚ × Nat :=
  gprFitLoop min_loss_rate losses training_max_iter 0 none []

/-- The value of `loss_0` seen by iteration `k` of a run begun at iteration
`0`: `np.inf` (`none`) when `k = 0` and the previous iteration's loss
otherwise. -/
def gprPrev (losses : Nat → ℚ) : Nat → Option ℚ
  | 0 => none
  | j + 1 => some (losses j)

/-- The break condition at global iteration `k` of a run begun at
iteration `0`. -/
def gprBreakAt (min_loss_rate : Option ℚ) (losses : Nat → ℚ) (k : Nat) :
    Bool :=
  gprBreak min_loss_rate (gprPrev losses k) (losses k)

/-! ## The `is_probabilistic` capability flag, per family -/

/-- Every concrete surrogate family of the repository: the eight
`Surrogate` subclasses of `harlow/surrogate_model.py` (legacy generation)
and the nine of `harlow/surrogating/surrogate_model.py` (second generation;
the `2`-suffixed constructors name the latter's classes where the class
name is shared with the legacy generation). -/
inductive Family : Type
  | GaussianProcess
  | GaussianProcessTFP
  | ModelListGaussianProcess
  | BatchIndependentGaussianProcess
  | MultiTaskGaussianProcess
  | NN
  | Prob_NN
  | Bayesian_NN
  | VanillaGaussianProcess
  | GaussianProcessTFP2
  | GaussianProcessRegression
  | ModelListGaussianProcess2
  | BatchIndependentGaussianProcess2
  | MultiTaskGaussianProcess2
  | DeepKernelMultiTaskGaussianProcess
  | Vanilla_NN
  | Vanilla_BayesianNN
  deriving DecidableEq

/-- The class attribute `is_probabilistic` of each family, read off the
class bodies (`surrogate_model.py` lines 69, 137, 368, 623, 835, 1024, 1068,
1122; `surrogating/surrogate_model.py` lines 67, 137, 426, 628, 885, 1099,
1314, 1520, 1561).  `Bayesian_NN.__init__` additionally sets the instance
attribute `self.is_probabilistic = True` (line 1126), the same value.
No other method of any family assigns it. -/
def Family.is_probabilistic : Family → Bool
  | .NN => false
  | .Vanilla_NN => false
  | _ => true

/-! ## Theorems -/

/-- `softplus` is nonnegative: `log(1 + exp x) ≥ log 1 = 0`. -/
theorem softplus_nonneg (x : ℝ) : 0 ≤ softplus x := by
  have h := Real.exp_pos x
  exact Real.log_nonneg (by linarith)

/-- C9: for every finite 2-column parameter input, the distribution produced
by `normal_sp` has scale ≥ 1e-3 in every component; the scale is 1e-3 plus
the nonnegative softplus of 0.05 times the second column. -/
theorem normal_sp_scale_floor :
    (∀ x : ℝ, 0 ≤ softplus x) ∧
      ∀ params : List (ℝ × ℝ),
        ((normal_sp params).map Prod.snd).Forall fun s => 1 / 1000 ≤ s := by
  refine ⟨softplus_nonneg, fun params => ?_⟩
  induction params with
  | nil => simp [normal_sp]
  | cons p t ih =>
    simp only [normal_sp, List.map_cons, List.forall_cons] at ih ⊢
    have h := softplus_nonneg (1 / 20 * p.2)
    exact ⟨by linarith, ih⟩

/-- C7: `six_hump_camel_2D` on the matrix whose columns are `x` and `y`
agrees with `six_hump_camel_2D_2input` on `(x, y)`, for equal-length `x`
and `y`. -/
theorem six_hump_camel_2D_eq_2input (x y : List ℚ) (h : x.length = y.length) :
    six_hump_camel_2D (x.zip y) = six_hump_camel_2D_2input x y := by
  induction x generalizing y with
  | nil => simp [six_hump_camel_2D, six_hump_camel_2D_2input]
  | cons a xs ih =>
    cases y with
    | nil => simp at h
    | cons b ys =>
      simp only [List.zip_cons_cons, six_hump_camel_2D, List.map_cons,
        six_hump_camel_2D_2input, List.zipWith_cons_cons]
      exact congrArg _ (ih ys (by simpa using h))

/-- Witness for C7 at `x = [1, 2]`, `y = [3, 5]`. -/
theorem six_hump_camel_2D_eq_2input_witness :
    six_hump_camel_2D (([1, 2] : List ℚ).zip [3, 5]) =
      six_hump_camel_2D_2input [1, 2] [3, 5] :=
  six_hump_camel_2D_eq_2input [1, 2] [3, 5] rfl

/-- C6 (counterexample): the claim states that `ackley_nd` at the
zero vector with default parameters returns `e - 1`; in fact at the
1-dimensional zero vector it returns `0`, and `0 ≠ e - 1`. -/
theorem ackley_nd_zero_ne_exp_sub_one :
    ackley_nd_default (List.replicate 1 0) = 0 ∧
      ackley_nd_default (List.replicate 1 0) ≠ Real.exp 1 - 1 := by
  have h0 : ackley_nd_default (List.replicate 1 0) = 0 := by
    simp [ackley_nd_default, ackley_nd, Real.sqrt_zero, Real.cos_zero]
  refine ⟨h0, ?_⟩
  rw [h0]
  intro hc
  have h := Real.exp_one_gt_d9
  norm_num at h hc
  linarith

/-- C6 (amended): for every dimension `n ≥ 1`, `ackley_nd` at the zero
vector with default parameters returns `0`: `t1 = -a` and `t2 = -e` (not
`-1`), so the result is `-a - e + a + e = 0`. -/
theorem ackley_nd_zero_eq_zero (n : Nat) (h : 1 ≤ n) :
    ackley_nd_default (List.replicate n 0) = 0 := by
  have hn : ((n : ℝ)) ≠ 0 := Nat.cast_ne_zero.mpr (by omega)
  simp [ackley_nd_default, ackley_nd, Real.sqrt_zero, Real.cos_zero,
    List.sum_replicate, nsmul_eq_mul, mul_one, div_self hn]

/-- Witness for C6 (amended) at `n = 3`. -/
theorem ackley_nd_zero_eq_zero_witness :
    ackley_nd_default (List.replicate 3 0) = 0 :=
  ackley_nd_zero_eq_zero 3 (by norm_num)

/-- The inner sum of `shekel`, written out for an explicit 4-element row
(`List.range 4`, the list lookups and `List.sum` all reduce definitionally). -/
theorem shekelInner_explicit (x0 x1 x2 x3 : ℚ) (i : Nat) :
    shekelInner [x0, x1, x2, x3] i =
      (x0 - (shekel_C.getD 0 []).getD i 0) ^ 2 +
        ((x1 - (shekel_C.getD 1 []).getD i 0) ^ 2 +
          ((x2 - (shekel_C.getD 2 []).getD i 0) ^ 2 +
            ((x3 - (shekel_C.getD 3 []).getD i 0) ^ 2 + 0))) := rfl

/-- Row 0 of `C` equals row 2, so each inner sum is symmetric in `x₀ ↔ x₂`. -/
theorem shekelOuter_swap02 (a b c d : ℚ) :
    shekelOuter [c, b, a, d] = shekelOuter [a, b, c, d] := by
  unfold shekelOuter
  congr 1
  apply List.map_congr_left
  intro i _
  have h02 : shekel_C.getD 0 [] = shekel_C.getD 2 [] := rfl
  rw [shekelInner_explicit, shekelInner_explicit, h02]
  ring

/-- Row 1 of `C` equals row 3, so each inner sum is symmetric in `x₁ ↔ x₃`. -/
theorem shekelOuter_swap13 (a b c d : ℚ) :
    shekelOuter [a, d, c, b] = shekelOuter [a, b, c, d] := by
  unfold shekelOuter
  congr 1
  apply List.map_congr_left
  intro i _
  have h13 : shekel_C.getD 1 [] = shekel_C.getD 3 [] := rfl
  rw [shekelInner_explicit, shekelInner_explicit, h13]
  ring

/-- C10: `shekel` is invariant under swapping column 0 with column 2, and
independently under swapping column 1 with column 3: the coefficient matrix
`C` has its first row equal to its third and its second row equal to its
fourth. -/
theorem shekel_column_swap_invariant (X : List (ℚ × ℚ × ℚ × ℚ)) :
    shekel (X.map fun p => (p.2.2.1, p.2.1, p.1, p.2.2.2)) = shekel X ∧
      shekel (X.map fun p => (p.1, p.2.2.2, p.2.2.1, p.2.1)) = shekel X := by
  constructor
  · simp only [shekel, List.map_map]
    apply List.map_congr_left
    intro p _
    simp only [Function.comp_apply]
    rw [shekelOuter_swap02]
  · simp only [shekel, List.map_map]
    apply List.map_congr_left
    intro p _
    simp only [Function.comp_apply]
    rw [shekelOuter_swap13]

/-- `get_noise` unfolded: the scan over the class-level default kernel always
finds exactly one `WhiteKernel` attribute, `k2`, so the two `ValueError`
branches are dead and the instance kernel is only ever probed for a `k2`
attribute with a `noise_level`. -/
theorem get_noise_eq (k : Kernel) :
    get_noise k =
      match k.getK 2 with
      | none => .error .attributeError
      | some sub =>
        match sub.noise_level with
        | none => .error .attributeError
        | some nl => .ok nl := rfl

/-- C1: `get_noise` scans `vars(GaussianProcess.kernel)` — the class-level
default kernel, which always contains exactly one additive `WhiteKernel` —
rather than the kernel supplied at construction.  Consequently (i) no
supplied kernel ever triggers either configuration `ValueError`; (ii) a
kernel with zero white-noise components (here a bare `RBF`) makes `fit` fail
with an `AttributeError` instead of the claimed configuration error; and
(iii) the `noise_std` recorded by `fit` is read from the kernel *template*
(`self.model.kernel`), so it is independent of the fitted kernel the
optimizer returns — it is not the learned noise level. -/
theorem get_noise_config_error_unreachable :
    (∀ k : Kernel,
        get_noise k ≠ .error .valueErrorNoWhite ∧
          get_noise k ≠ .error .valueErrorMultipleWhite) ∧
      get_noise (.rbf 1) = .error .attributeError ∧
        ∀ (s : GPState) (X y : NDArray) (f₁ f₂ : Kernel),
          (s.fit X y f₁).map GPState.noise_level =
            (s.fit X y f₂).map GPState.noise_level := by
  refine ⟨fun k => ?_, rfl, fun s X y f₁ f₂ => ?_⟩
  · rw [get_noise_eq]
    cases hk : k.getK 2 with
    | none => exact ⟨by simp, by simp⟩
    | some sub =>
      cases hn : sub.noise_level with
      | none => exact ⟨by simp [hn], by simp [hn]⟩
      | some nl => exact ⟨by simp [hn], by simp [hn]⟩
  · cases hm : s.model with
    | none => simp [GPState.fit, hm]
    | some m =>
      cases hg : get_noise s.kernel with
      | error e => simp [GPState.fit, hm, hg]
      | ok nl => simp [GPState.fit, hm, hg, Except.map]

/-- C2: in `Prob_NN.predict` and `Bayesian_NN.predict` the `return_samples`
flag has no effect — the branch builds the `(mean, stdv, preds)` tuple and
discards it — and the method returns the 2-tuple of empirical mean and
standard deviation unconditionally.  At the concrete failing input (constant
model, 1 row, 2 iterations, `return_samples=True`) the result is the 2-tuple
`([1], [0])`, not a 3-tuple carrying the sample matrix. -/
theorem probNN_predict_drops_samples :
    (∀ (m : KerasModel) (nRows it : Nat),
        probNN_predict (some m) nRows it true =
          probNN_predict (some m) nRows it false) ∧
      probNN_predict (some fun _ _ => 1) 1 2 true = .pair [1] [0] := by
  refine ⟨fun m nRows it => rfl, ?_⟩
  have hm : empMean 2 (fun _ : Nat => (1 : ℝ)) = 1 := by
    simp [empMean, Finset.sum_range_succ]
  have hs : empStd 2 (fun _ : Nat => (1 : ℝ)) = 0 := by
    simp [empStd, hm, Finset.sum_range_succ]
  simp [probNN_predict, List.range_succ, hm, hs]

/-- C3: on an instance with no created model, `predict` returns `None`
rather than raising, for every input: the deterministic families
(`NN.predict`, `Vanilla_NN.predict`), the probabilistic families
(`Prob_NN.predict`, `Bayesian_NN.predict`), and in particular a freshly
constructed `Vanilla_NN`, whose `__init__` does not create a model. -/
theorem predict_without_model_returns_none :
    (∀ X : NDArray, nn_predict none X = none) ∧
      (∀ (nRows it : Nat) (rs : Bool),
        probNN_predict none nRows it rs = .pyNone) ∧
      ∀ (epochs batch_size : Nat) (X : NDArray),
        nn_predict (VanillaNN.init epochs batch_size).model X = none := by
  exact ⟨fun _ => rfl, fun _ _ _ => rfl, fun _ _ _ => rfl⟩

/-- A successful `np.concatenate` along axis 0 appends the data row-major
and adds the leading dimensions. -/
theorem npConcat_spec (a b c : NDArray) (hc : a.npConcat b = some c) :
    c.data = a.data ++ b.data ∧ c.rows = a.rows + b.rows := by
  obtain ⟨ashape, adata⟩ := a
  obtain ⟨bshape, bdata⟩ := b
  rcases ashape with _ | ⟨a0, atl⟩
  · simp [NDArray.npConcat] at hc
  rcases bshape with _ | ⟨b0, btl⟩
  · simp [NDArray.npConcat] at hc
  simp only [NDArray.npConcat] at hc
  by_cases ht : atl = btl
  · rw [if_pos ht] at hc
    cases hc
    exact ⟨rfl, rfl⟩
  · rw [if_neg ht] at hc
    cases hc

/-- C4: when one `update(new_X, new_y)` call on a fitted classical GP
surrogate succeeds, the stored dataset becomes the concatenation of the old
and new data: the new `X` carries the old rows followed by the new ones and
its row count is the sum of the two; `new_y` is flattened first exactly when
its `ndim` exceeds the stored `y`'s, and the new `y` is the old `y` followed
by that (possibly flattened) batch, with its row count again the sum. -/
theorem gp_update_concatenates (s : GPState) (new_X new_y : NDArray)
    (fitted : Kernel) (s' : GPState)
    (h : s.update new_X new_y fitted = .ok s') :
    ∃ X0 y0 X' y', s.X = some X0 ∧ s.y = some y0 ∧
      s'.X = some X' ∧ s'.y = some y' ∧
      X'.data = X0.data ++ new_X.data ∧ X'.rows = X0.rows + new_X.rows ∧
      (new_y.ndim > y0.ndim →
        y'.data = y0.data ++ new_y.flatten.data ∧
          y'.rows = y0.rows + new_y.flatten.rows) ∧
      (¬ new_y.ndim > y0.ndim →
        y'.data = y0.data ++ new_y.data ∧
          y'.rows = y0.rows + new_y.rows) := by
  obtain ⟨fl, tr, kern, mdl, nz, sX, sy⟩ := s
  rcases sX with _ | X0
  · simp [GPState.update] at h
  rcases sy with _ | y0
  · simp [GPState.update] at h
  rcases mdl with _ | m
  · simp [GPState.update] at h
  simp only [GPState.update] at h
  rcases hcX : X0.npConcat new_X with _ | X1 <;> rw [hcX] at h
  · cases h
  rcases hcy : y0.npConcat
      (if new_y.ndim > y0.ndim then new_y.flatten else new_y) with _ | y1 <;>
    rw [hcy] at h
  · cases h
  rcases hkf : m.kernel_fitted with _ | kf <;> rw [hkf] at h
  · cases h
  simp only [GPState.fit, GPState.create_model] at h
  rcases hg : get_noise kf with e | nl <;> rw [hg] at h
  · cases h
  cases h
  refine ⟨X0, y0, X1, y1, rfl, rfl, rfl, rfl, ?_, ?_, ?_, ?_⟩
  · exact (npConcat_spec _ _ _ hcX).1
  · exact (npConcat_spec _ _ _ hcX).2
  · intro hnd
    rw [if_pos hnd] at hcy
    exact npConcat_spec _ _ _ hcy
  · intro hnd
    rw [if_neg hnd] at hcy
    exact npConcat_spec _ _ _ hcy

/-- Witness for C4: a fitted state holding a 2×1 `X` and length-2 `y`; one
update with a 1×1 `new_X` and a 2-D 1×1 `new_y` (which gets flattened)
yields the 3×1 `X = [[1],[2],[5]]` and `y = [3,4,6]`. -/
theorem gp_update_concatenates_witness :
    ∃ X0 y0 X' y',
      (GPState.mk true 10 GaussianProcess.classKernel
          (some ⟨GaussianProcess.classKernel, 10,
            some GaussianProcess.classKernel⟩)
          (some 1) (some ⟨[2, 1], [1, 2]⟩) (some ⟨[2], [3, 4]⟩)).X = some X0 ∧
      (GPState.mk true 10 GaussianProcess.classKernel
          (some ⟨GaussianProcess.classKernel, 10,
            some GaussianProcess.classKernel⟩)
          (some 1) (some ⟨[2, 1], [1, 2]⟩) (some ⟨[2], [3, 4]⟩)).y = some y0 ∧
      (GPState.mk true 10 GaussianProcess.classKernel
          (some ⟨GaussianProcess.classKernel, 10,
            some GaussianProcess.classKernel⟩)
          (some 1) (some ⟨[3, 1], [1, 2, 5]⟩) (some ⟨[3], [3, 4, 6]⟩)).X =
        some X' ∧
      (GPState.mk true 10 GaussianProcess.classKernel
          (some ⟨GaussianProcess.classKernel, 10,
            some GaussianProcess.classKernel⟩)
          (some 1) (some ⟨[3, 1], [1, 2, 5]⟩) (some ⟨[3], [3, 4, 6]⟩)).y =
        some y' ∧
      X'.data = X0.data ++ NDArray.data ⟨[1, 1], [5]⟩ ∧
      X'.rows = X0.rows + NDArray.rows ⟨[1, 1], [5]⟩ ∧
      (NDArray.ndim ⟨[1, 1], [6]⟩ > y0.ndim →
        y'.data = y0.data ++ (NDArray.flatten ⟨[1, 1], [6]⟩).data ∧
          y'.rows = y0.rows + (NDArray.flatten ⟨[1, 1], [6]⟩).rows) ∧
      (¬ NDArray.ndim ⟨[1, 1], [6]⟩ > y0.ndim →
        y'.data = y0.data ++ NDArray.data ⟨[1, 1], [6]⟩ ∧
          y'.rows = y0.rows + NDArray.rows ⟨[1, 1], [6]⟩) := by
  have hrun :
      (GPState.mk true 10 GaussianProcess.classKernel
          (some ⟨GaussianProcess.classKernel, 10,
            some GaussianProcess.classKernel⟩)
          (some 1) (some ⟨[2, 1], [1, 2]⟩)
          (some ⟨[2], [3, 4]⟩)).update ⟨[1, 1], [5]⟩ ⟨[1, 1], [6]⟩
          GaussianProcess.classKernel =
        .ok (GPState.mk true 10 GaussianProcess.classKernel
          (some ⟨GaussianProcess.classKernel, 10,
            some GaussianProcess.classKernel⟩)
          (some 1) (some ⟨[3, 1], [1, 2, 5]⟩) (some ⟨[3], [3, 4, 6]⟩)) := by
    rfl
  exact gp_update_concatenates _ _ _ _ _ hrun

/-- Invariant of `gprFitLoop`, for any start index `i` whose incoming
`loss_0` is `np.inf` at `i = 0` and the previous iteration's loss otherwise:
the loop executes at most `rem` further iterations, appends exactly the
losses of the executed iterations to the accumulator, and executes exactly
up to and including the first iteration whose break condition holds. -/
theorem gprFitLoop_spec (mlr : Option ℚ) (losses : Nat → ℚ) :
    ∀ (rem i : Nat) (acc : List ℚ),
      (gprFitLoop mlr losses rem i (gprPrev losses i) acc).2 ≤ rem ∧
      (gprFitLoop mlr losses rem i (gprPrev losses i) acc).1 =
        acc ++ (List.range' i
          (gprFitLoop mlr losses rem i (gprPrev losses i) acc).2).map
            losses ∧
      (gprFitLoop mlr losses rem i (gprPrev losses i) acc).2 =
        match (List.range' i rem).find? (fun k => gprBreakAt mlr losses k) with
        | some k => k + 1 - i
        | none => rem := by
  intro rem
  induction rem with
  | zero =>
    intro i acc
    exact ⟨le_refl 0, by simp [gprFitLoop], by simp [gprFitLoop]⟩
  | succ rem ih =>
    intro i acc
    have hbeq : gprBreak mlr (gprPrev losses i) (losses i) =
        gprBreakAt mlr losses i := rfl
    cases hb : gprBreakAt mlr losses i with
    | true =>
      have hred : gprFitLoop mlr losses (rem + 1) i (gprPrev losses i) acc =
          (acc ++ [losses i], 1) := by
        simp only [gprFitLoop, hbeq, hb, if_true]
      rw [hred]
      refine ⟨by omega, by simp [List.range'], ?_⟩
      rw [List.range'_succ, List.find?_cons_of_pos _ hb]
      show (1 : Nat) = i + 1 - i
      omega
    | false =>
      have ih' := ih (i + 1) (acc ++ [losses i])
      have hprev : gprPrev losses (i + 1) = some (losses i) := rfl
      rw [hprev] at ih'
      have hred : gprFitLoop mlr losses (rem + 1) i (gprPrev losses i) acc =
          ((gprFitLoop mlr losses rem (i + 1) (some (losses i))
              (acc ++ [losses i])).1,
            (gprFitLoop mlr losses rem (i + 1) (some (losses i))
              (acc ++ [losses i])).2 + 1) := by
        simp only [gprFitLoop, hbeq, hb, Bool.false_eq_true, if_false]
      rw [hred]
      obtain ⟨h1, h2, h3⟩ := ih'
      refine ⟨by omega, ?_, ?_⟩
      · rw [h2, List.range'_succ, List.map_cons, List.append_assoc]
        rfl
      · rw [List.range'_succ,
          List.find?_cons_of_neg _ (by simp [hb])]
        cases hf : (List.range' (i + 1) rem).find?
            (fun k => gprBreakAt mlr losses k) with
        | none =>
          rw [hf] at h3
          have h3' : (gprFitLoop mlr losses rem (i + 1) (some (losses i))
              (acc ++ [losses i])).2 = rem := h3
          show (gprFitLoop mlr losses rem (i + 1) (some (losses i))
              (acc ++ [losses i])).2 + 1 = rem + 1
          omega
        | some k =>
          rw [hf] at h3
          have hk : i + 1 ≤ k :=
            (List.mem_range'_1.mp (List.mem_of_find?_eq_some hf)).1
          have h3' : (gprFitLoop mlr losses rem (i + 1) (some (losses i))
              (acc ++ [losses i])).2 = k + 1 - (i + 1) := h3
          show (gprFitLoop mlr losses rem (i + 1) (some (losses i))
              (acc ++ [losses i])).2 + 1 = k + 1 - i
          omega

/-- C5: `GaussianProcessRegression.fit` executes at most `training_max_iter`
iterations; `vec_loss` records exactly one entry — the iteration's loss —
per executed iteration; and the number of executed iterations is exactly
`training_max_iter`, or `k + 1` where `k` is the first iteration whose
`loss_ratio = (loss_0 - loss) - min_loss_rate * loss` is below zero (the
loop breaks immediately after that iteration; with `min_loss_rate` unset the
break condition never fires). -/
theorem gprFit_spec (training_max_iter : Nat) (mlr : Option ℚ)
    (losses : Nat → ℚ) :
    (gprFit training_max_iter mlr losses).2 ≤ training_max_iter ∧
      (gprFit training_max_iter mlr losses).1 =
        (List.range (gprFit training_max_iter mlr losses).2).map losses ∧
      (gprFit training_max_iter mlr losses).1.length =
        (gprFit training_max_iter mlr losses).2 ∧
      (gprFit training_max_iter mlr losses).2 =
        match (List.range training_max_iter).find?
            (fun k => gprBreakAt mlr losses k) with
        | some k => k + 1
        | none => training_max_iter := by
  have h := gprFitLoop_spec mlr losses training_max_iter 0 []
  obtain ⟨h1, h2, h3⟩ := h
  have hfit : gprFit training_max_iter mlr losses =
      gprFitLoop mlr losses training_max_iter 0 (gprPrev losses 0) [] := rfl
  rw [List.range_eq_range' training_max_iter]
  rw [List.range_eq_range']
  refine ⟨hfit ▸ h1, ?_, ?_, ?_⟩
  · rw [hfit]
    rw [h2]
    simp
  · rw [hfit, h2]
    simp
  · rw [hfit, h3]
    cases (List.range' 0 training_max_iter).find?
        (fun k => gprBreakAt mlr losses k) with
    | none => rfl
    | some k =>
      show k + 1 - 0 = k + 1
      omega

/-- C8: `is_probabilistic` is a fixed per-family constant — `False` for the
deterministic NN families (`NN`, `Vanilla_NN`), `True` for every other
family (all GP families and the Bayesian/heteroscedastic NN families) — and
no operation changes it during an instance's lifetime: the classical GP
constructor sets it to the class constant, and `create_model`, `fit` and
`update` leave it unchanged; a fresh `Vanilla_NN` carries `False`.  (The
`predict` bodies of the embedded families assign no instance attribute
related to the flag — `nn_predict` and `probNN_predict` are pure functions
of the state.) -/
theorem is_probabilistic_fixed_per_family :
    (Family.NN.is_probabilistic = false ∧
      Family.Vanilla_NN.is_probabilistic = false ∧
      ∀ f : Family, f ≠ .NN → f ≠ .Vanilla_NN → f.is_probabilistic = true) ∧
      (∀ (tr : Nat) (k : Kernel),
        (GPState.init tr k).is_probabilistic = true) ∧
      (∀ s : GPState, s.create_model.is_probabilistic = s.is_probabilistic) ∧
      (∀ (s : GPState) (X y : NDArray) (fk : Kernel) (s' : GPState),
        s.fit X y fk = .ok s' → s'.is_probabilistic = s.is_probabilistic) ∧
      (∀ (s : GPState) (nX nY : NDArray) (fk : Kernel) (s' : GPState),
        s.update nX nY fk = .ok s' →
          s'.is_probabilistic = s.is_probabilistic) ∧
      ∀ (epochs batch_size : Nat),
        (VanillaNN.init epochs batch_size).is_probabilistic = false := by
  refine ⟨⟨rfl, rfl, fun f h1 h2 => ?_⟩, fun tr k => rfl, fun s => rfl,
    fun s X y fk s' h => ?_, fun s nX nY fk s' h => ?_, fun e b => rfl⟩
  · cases f <;> simp_all [Family.is_probabilistic]
  · obtain ⟨fl, tr, kern, mdl, nz, sX, sy⟩ := s
    rcases mdl with _ | m
    · simp [GPState.fit] at h
    simp only [GPState.fit] at h
    rcases hg : get_noise kern with e | nl <;> rw [hg] at h
    · cases h
    cases h
    rfl
  · obtain ⟨fl, tr, kern, mdl, nz, sX, sy⟩ := s
    rcases sX with _ | X0
    · simp [GPState.update] at h
    rcases sy with _ | y0
    · simp [GPState.update] at h
    rcases mdl with _ | m
    · simp [GPState.update] at h
    simp only [GPState.update] at h
    rcases hcX : X0.npConcat nX with _ | X1 <;> rw [hcX] at h
    · cases h
    rcases hcy : y0.npConcat
        (if nY.ndim > y0.ndim then nY.flatten else nY) with _ | y1 <;>
      rw [hcy] at h
    · cases h
    rcases hkf : m.kernel_fitted with _ | kf <;> rw [hkf] at h
    · cases h
    simp only [GPState.fit, GPState.create_model] at h
    rcases hg : get_noise kf with e | nl <;> rw [hg] at h
    · cases h
    cases h
    rfl

/-- Witness for C8: the family table at `GaussianProcess`, and flag
preservation across one concrete successful `fit` on a freshly constructed
classical GP surrogate. -/
theorem is_probabilistic_fixed_per_family_witness :
    Family.GaussianProcess.is_probabilistic = true ∧
      (GPState.mk true 10 GaussianProcess.classKernel
          (some ⟨GaussianProcess.classKernel, 10,
            some GaussianProcess.classKernel⟩)
          (some 1) (some ⟨[1, 1], [7]⟩)
          (some ⟨[1], [7]⟩)).is_probabilistic =
        (GPState.init 10 GaussianProcess.classKernel).is_probabilistic := by
  constructor
  · exact is_probabilistic_fixed_per_family.1.2.2 .GaussianProcess
      (by decide) (by decide)
  · exact is_probabilistic_fixed_per_family.2.2.2.1
      (GPState.init 10 GaussianProcess.classKernel) ⟨[1, 1], [7]⟩ ⟨[1], [7]⟩
      GaussianProcess.classKernel _ rfl

end Harlow
